import Mathlib

/-!
# Verification of the headcount-scenario pipeline

A shallow embedding of the data pipeline of `src/people_headcount_app.py`:
the roster loader (`load_roster`), the selection engine (the
`sort_values`/`head` combination at line 75), the summary statistics
(`total_cost`, `average_cost`, `median_cost`, lines 77-79), and the
error-handling driver (lines 46-50).

Modelling conventions:
* A pandas `DataFrame` read with `dtype=str` is a `Source`: a list of column
  names plus a list of string-valued rows.
* `pd.to_numeric(·, errors="coerce")` on one cell is `to_numeric`,
  restricted to plain signed decimal literals (an optional sign, integer
  digits, an optional fractional part); every cell the claims exercise is of
  that shape.  Unparseable cells become `none` (the NaN that `dropna` drops).
* Float results (`.mean()`, `.median()`) are modelled as exact rationals,
  built with `mkRat` so that they evaluate inside the kernel; Python
  `int(·)` on a float truncates toward zero, modelled by `truncQ`.
  Numpy `.astype(int)` also truncates toward zero.
* `df.sort_values(col, ascending=b)` argsorts the column with
  `pandas.core.sorting.nargsort`: when `b` is false, the values are
  reversed *before* the ascending argsort and the resulting indexer is
  reversed *after*, so the double reversal cancels on tied rows and a
  descending sort with a stable underlying argsort keeps tied rows in
  their original order.  The underlying argsort is modelled as a stable
  sort (`List.insertionSort`); that is exact in numpy's small-array
  insertion-sort regime (fewer than 16 rows), but it is an assumption
  beyond it: the code uses the default `kind="quicksort"`, which pandas
  does not document as stable.
-/

/-- One row of the CSV as read with `dtype=str, keep_default_na=False`:
every field is a string. -/
structure RawRow where
  employee_id : String
  name : String
  role : String
  department : String
  location : String
  comp_usd : String
deriving DecidableEq, Repr

/-- The parsed CSV file: its header (column names) and its rows.
Models the `DataFrame` produced by `pd.read_csv(csv_path, dtype=str,
keep_default_na=False)` at line 33. -/
structure Source where
  columns : List String
  rows : List RawRow
deriving DecidableEq, Repr

/-- A clean employee record, after numeric coercion of `comp_usd`
(line 42 converts the compensation to `int`). -/
structure Employee where
  employee_id : String
  name : String
  role : String
  department : String
  location : String
  comp_usd : Int
deriving DecidableEq, Repr

/-- The numeric value of a decimal digit character. -/
def digitVal (c : Char) : Nat := c.toNat - '0'.toNat

/-- The natural number denoted by a list of decimal digit characters
(most significant first); `0` for the empty list. -/
def digitsToNat (cs : List Char) : Nat := cs.foldl (fun a c => 10 * a + digitVal c) 0

/-- Models `pd.to_numeric(cell, errors="coerce")` (line 37) on one cell,
restricted to plain signed decimal literals: an optional `+`/`-` sign,
decimal digits, and an optional `.`-separated fractional part, with at
least one digit overall.  Any other string coerces to NaN, modelled as
`none`. -/
def to_numeric (s : String) : Option ℚ :=
  let cs := s.toList
  let signBody : Bool × List Char :=
    match cs with
    | '-' :: t => (true, t)
    | '+' :: t => (false, t)
    | _ => (false, cs)
  let body := signBody.2
  let ip := body.takeWhile (fun c => c.isDigit)
  let rest := body.dropWhile (fun c => c.isDigit)
  let fp? : Option (List Char) :=
    match rest with
    | [] => some []
    | '.' :: t => if t.all (fun c => c.isDigit) then some t else none
    | _ => none
  match fp? with
  | none => none
  | some fp =>
    if ip.isEmpty && fp.isEmpty then none
    else
      let sgn : Int := if signBody.1 then -1 else 1
      some (mkRat (sgn * (digitsToNat ip * 10 ^ fp.length + digitsToNat fp : Nat)) (10 ^ fp.length))

/-- Truncation of a rational toward zero: the value of Python `int(x)` on a
float `x`, and of numpy `.astype(int)` on a float column.  (`q.den` is
positive, so dividing the numerator by it with `Int.tdiv` truncates the
value of `q` toward zero; `truncQ_eq` below restates this through floor
and ceiling.) -/
def truncQ (q : ℚ) : ℤ := q.num.tdiv q.den

/-- Models `df["employee_id"].str.startswith("E", na=False)` (line 39):
the identifier's first character is `E`. -/
def isEmployeeId (s : String) : Bool :=
  match s.toList with
  | c :: _ => c = 'E'
  | [] => false

/-- The error raised by the loader.  The source raises
`RuntimeError("Expected column 'comp_usd' in roster CSV")` at line 36; the
spec calls this taxonomy `LoadError`. -/
inductive LoadError where
  | missingColumn (message : String)
deriving DecidableEq, Repr

/-- The message carried by a `LoadError`. -/
def LoadError.message : LoadError → String
  | .missingColumn m => m

/-- Lines 37-42 applied to one raw row that already passed the
`employee_id` filter: coerce `comp_usd` (line 37); a coercion failure is
the NaN dropped at line 40; cast to `int` (line 42, truncation toward
zero). -/
def cleanRow (r : RawRow) : Option Employee :=
  (to_numeric r.comp_usd).map fun q =>
    { employee_id := r.employee_id, name := r.name, role := r.role,
      department := r.department, location := r.location,
      comp_usd := truncQ q }

/-- `load_roster` (lines 31-43): check the `comp_usd` column exists
(lines 35-36), keep rows whose `employee_id` starts with `E` (line 39),
drop rows whose compensation does not coerce (lines 37 and 40), convert
compensation to integer (line 42). -/
def load_roster (src : Source) : Except LoadError (List Employee) :=
  if "comp_usd" ∈ src.columns then
    .ok ((src.rows.filter fun r => isEmployeeId r.employee_id).filterMap cleanRow)
  else
    .error (.missingColumn "Expected column 'comp_usd' in roster CSV")

/-- The comparison key of the sort at line 75: compare employees by
`comp_usd`. -/
def compLE (a b : Employee) : Prop := a.comp_usd ≤ b.comp_usd

instance : DecidableRel compLE := fun a b => Int.decLe a.comp_usd b.comp_usd

instance : IsTotal Employee compLE := ⟨fun a b => Int.le_total a.comp_usd b.comp_usd⟩

instance : IsTrans Employee compLE := ⟨fun _ _ _ h₁ h₂ => le_trans h₁ h₂⟩

/-- Models `roster_df.sort_values("comp_usd", ascending=ascending)`
(line 75): `nargsort` argsorts the column ascending; for
`ascending=False` it reverses the values before that argsort and the
indexer after, which on lists is reverse, stable ascending sort, reverse
again.  The underlying argsort is modelled as the stable
`List.insertionSort` (exact for numpy's insertion-sort regime; the
default `kind="quicksort"` does not guarantee it in general). -/
def sort_values (roster : List Employee) (ascending : Bool) : List Employee :=
  if ascending then roster.insertionSort compLE
  else (roster.reverse.insertionSort compLE).reverse

/-- The selection engine, line 75:
`roster_df.sort_values("comp_usd", ascending=ascending).head(target_headcount)`. -/
def select (roster : List Employee) (targetCount : Nat) (ascending : Bool) : List Employee :=
  (sort_values roster ascending).take targetCount

/-- Line 77: `int(selected["comp_usd"].sum()) if not selected.empty else 0`. -/
def total_cost (sel : List Employee) : Int :=
  if sel.isEmpty then 0 else (sel.map Employee.comp_usd).sum

/-- Line 78: `int(selected["comp_usd"].mean()) if not selected.empty else 0`.
The float mean is the exact rational sum-over-count; `int(·)` truncates
toward zero. -/
def average_cost (sel : List Employee) : Int :=
  if sel.isEmpty then 0
  else truncQ (mkRat (sel.map Employee.comp_usd).sum sel.length)

/-- Models `Series.median()` on a nonempty integer column: sort the values
ascending; take the middle value for an odd count, the mean of the two
middle values for an even count. -/
def series_median (xs : List Int) : ℚ :=
  let v := xs.insertionSort (· ≤ ·)
  if xs.length % 2 = 1 then mkRat (v.getD (xs.length / 2) 0) 1
  else mkRat (v.getD (xs.length / 2 - 1) 0 + v.getD (xs.length / 2) 0) 2

/-- Line 79: `int(selected["comp_usd"].median()) if not selected.empty else 0`. -/
def median_cost (sel : List Employee) : Int :=
  if sel.isEmpty then 0 else truncQ (series_median (sel.map Employee.comp_usd))

/-- The summary statistics of lines 77-79 plus the selected count
(`selected.shape[0]`, line 87), the spec's
`summarize(selection) -> \x7bcount, total, average, median\x7d`. -/
structure Summary where
  count : Nat
  total : Int
  average : Int
  median : Int
deriving DecidableEq, Repr

/-- The summary calculator: lines 77-79 and the selected count of line 87. -/
def summarize (sel : List Employee) : Summary :=
  { count := sel.length, total := total_cost sel,
    average := average_cost sel, median := median_cost sel }

/-- What one render pass produces.  `errorPage` models lines 49-50
(`st.error(...)` followed by `st.stop()`): a single message and no further
rendering.  `dashboard` models the full UI built from the selection and its
summary. -/
inductive RenderOutput where
  | errorPage (message : String)
  | dashboard (selected : List Employee) (stats : Summary)
deriving DecidableEq, Repr

/-- One render pass, lines 46-79: load the roster; on any load failure show
`st.error(f"Could not load roster: \x7bexc\x7d")` and `st.stop()` (lines
48-50), otherwise select and summarize. -/
def runApp (src : Source) (target : Nat) (ascending : Bool) : RenderOutput :=
  match load_roster src with
  | .error e => .errorPage ("Could not load roster: " ++ e.message)
  | .ok roster =>
      let sel := select roster target ascending
      .dashboard sel (summarize sel)

/-- Modelled from the spec's words (section 4.3): the conventional numeric
median of a list of integers — the middle value of the ascending-sorted
values for an odd count, the average of the two middle values for an even
count. -/
def conventionalMedian (xs : List Int) : ℚ :=
  let v := xs.insertionSort (· ≤ ·)
  if xs.length % 2 = 1 then (v.getD (xs.length / 2) 0 : ℚ)
  else ((v.getD (xs.length / 2 - 1) 0 : ℚ) + (v.getD (xs.length / 2) 0 : ℚ)) / 2

instance instDecEqExcept {ε α : Type} [DecidableEq ε] [DecidableEq α] : DecidableEq (Except ε α)
  | .error x, .error y =>
    if h : x = y then .isTrue (by rw [h])
    else .isFalse (fun c => by injection c; exact h (by assumption))
  | .error _, .ok _ => .isFalse (fun c => by injection c)
  | .ok _, .error _ => .isFalse (fun c => by injection c)
  | .ok x, .ok y =>
    if h : x = y then .isTrue (by rw [h])
    else .isFalse (fun c => by injection c; exact h (by assumption))

/-!
## Theorems

First some general lemmas about the embedding, then one theorem (with its
witness or counterexample) per specification claim.
-/

/-- `truncQ` is truncation toward zero: the floor of a nonnegative rational
and the ceiling of a negative one. -/
theorem truncQ_eq (q : ℚ) : truncQ q = if 0 ≤ q then ⌊q⌋ else ⌈q⌉ := by
  unfold truncQ
  rcases le_or_lt 0 q with hq | hq
  · rw [if_pos hq, Rat.floor_def,
      Int.tdiv_eq_ediv (Rat.num_nonneg.mpr hq) (Int.ofNat_nonneg q.den)]
  · rw [if_neg (not_le.mpr hq)]
    have hnum : q.num < 0 := by
      by_contra hc
      exact absurd (Rat.num_nonneg.mp (not_lt.mp hc)) (not_le.mpr hq)
    calc q.num.tdiv q.den = -((-q.num).tdiv q.den) := by rw [Int.neg_tdiv, neg_neg]
      _ = -((-q.num) / (q.den : ℤ)) := by
          rw [Int.tdiv_eq_ediv (by omega) (Int.ofNat_nonneg q.den)]
      _ = -⌊-q⌋ := by rw [Rat.floor_def, Rat.neg_num, Rat.neg_den]
      _ = ⌈q⌉ := by rw [Int.floor_neg, neg_neg]

/-- Truncating the exact rational `a / d` toward zero is integer
T-division. -/
theorem truncQ_intCast_div_natCast (a : ℤ) (d : ℕ) (hd : 0 < d) :
    truncQ ((a : ℚ) / (d : ℚ)) = a.tdiv d := by
  rw [truncQ_eq]
  rcases le_or_lt 0 a with ha | ha
  · rw [if_pos (by positivity), Rat.floor_intCast_div_natCast,
      Int.tdiv_eq_ediv ha (Int.ofNat_nonneg d)]
  · have hq : ((a : ℚ) / (d : ℚ)) < 0 :=
      div_neg_of_neg_of_pos (by exact_mod_cast ha) (by exact_mod_cast hd)
    rw [if_neg (not_le.mpr hq)]
    have hcast : ((-a : ℤ) : ℚ) / (d : ℚ) = -((a : ℚ) / (d : ℚ)) := by
      push_cast
      ring
    calc ⌈(a : ℚ) / (d : ℚ)⌉ = -⌊-((a : ℚ) / (d : ℚ))⌋ := by rw [Int.floor_neg, neg_neg]
      _ = -⌊((-a : ℤ) : ℚ) / (d : ℚ)⌋ := by rw [hcast]
      _ = -((-a) / (d : ℤ)) := by rw [Rat.floor_intCast_div_natCast]
      _ = a.tdiv d := by
          rw [← Int.tdiv_eq_ediv (by omega) (Int.ofNat_nonneg d), Int.neg_tdiv, neg_neg]

/-- `mkRat` agrees with cast-and-divide. -/
theorem mkRat_eq_div_cast (a : ℤ) (d : ℕ) : mkRat a d = (a : ℚ) / (d : ℚ) := by
  rw [Rat.mkRat_eq_divInt, Rat.divInt_eq_div]
  push_cast
  ring

/-- Truncating `mkRat a d` toward zero is integer T-division. -/
theorem truncQ_mkRat (a : ℤ) (d : ℕ) (hd : 0 < d) : truncQ (mkRat a d) = a.tdiv d := by
  rw [mkRat_eq_div_cast, truncQ_intCast_div_natCast a d hd]

/-- Truncating an integer-valued rational is the identity. -/
theorem truncQ_intCast (a : ℤ) : truncQ ((a : ℚ)) = a := by
  rw [truncQ_eq]
  rcases le_or_lt 0 a with ha | ha
  · rw [if_pos (by exact_mod_cast ha), Int.floor_intCast]
  · rw [if_neg (by exact_mod_cast not_le.mpr ha), Int.ceil_intCast]

/-- C3: the selection has exactly `min n (length roster)` rows; in
particular `n = 0` yields the empty selection and no error. -/
theorem select_length (roster : List Employee) (n : Nat) (ascending : Bool) :
    (select roster n ascending).length = min n roster.length := by
  cases ascending <;> simp [select, sort_values]

/-- C4: the ascending selection is non-decreasing in `comp_usd` and the
descending selection is non-increasing in `comp_usd`. -/
theorem select_sorted_by_comp (roster : List Employee) (n : Nat) :
    List.Pairwise (fun a b : Employee => a.comp_usd ≤ b.comp_usd) (select roster n true) ∧
    List.Pairwise (fun a b : Employee => b.comp_usd ≤ a.comp_usd) (select roster n false) := by
  have hs : List.Pairwise compLE (roster.insertionSort compLE) :=
    List.sorted_insertionSort compLE roster
  constructor
  · have h1 : select roster n true = (roster.insertionSort compLE).take n := by
      simp [select, sort_values]
    rw [h1]
    exact hs.sublist (List.take_sublist n _)
  · have h1 : select roster n false =
        (roster.reverse.insertionSort compLE).reverse.take n := by
      simp [select, sort_values]
    rw [h1]
    have hs2 : List.Pairwise compLE (roster.reverse.insertionSort compLE) :=
      List.sorted_insertionSort compLE roster.reverse
    have hrev : List.Pairwise (fun a b : Employee => b.comp_usd ≤ a.comp_usd)
        (roster.reverse.insertionSort compLE).reverse :=
      List.pairwise_reverse.mpr hs2
    exact hrev.sublist (List.take_sublist n _)

/-- The roster columns of the example sources. -/
def rosterColumns : List String :=
  ["employee_id", "name", "role", "department", "location", "comp_usd"]

/-- A raw row with a valid employee id and a negative compensation. -/
def negRow : RawRow := ⟨"E9", "Mallory", "Engineer", "RD", "NYC", "-5"⟩

/-- A source whose only row carries a negative compensation. -/
def negSrc : Source := ⟨rosterColumns, [negRow]⟩

/-- The employee record the loader produces for `negRow`. -/
def negEmp : Employee := ⟨"E9", "Mallory", "Engineer", "RD", "NYC", -5⟩

/-- C2 counterexample: the loader checks only that the compensation parses
and that the identifier starts with `E`; it never checks the sign, so the
row with compensation `-5` is retained with a negative `comp_usd`,
contradicting the claimed non-negativity of every loaded record. -/
theorem load_retains_negative_comp :
    load_roster negSrc = .ok [negEmp] ∧ negEmp.comp_usd < 0 := by decide

/-- C2 (amended): every record in a successfully loaded roster has an
`employee_id` accepted by the employee-row predicate and a `comp_usd`
obtained by parsing some source row's compensation field (rows failing
either condition are dropped); non-negativity is not guaranteed. -/
theorem load_roster_invariant (src : Source) (roster : List Employee) (e : Employee)
    (hload : load_roster src = .ok roster) (he : e ∈ roster) :
    isEmployeeId e.employee_id = true ∧
    ∃ raw ∈ src.rows, raw.employee_id = e.employee_id ∧
      ∃ q, to_numeric raw.comp_usd = some q ∧ e.comp_usd = truncQ q := by
  unfold load_roster at hload
  by_cases hcol : "comp_usd" ∈ src.columns
  · rw [if_pos hcol] at hload
    injection hload with hload
    subst hload
    obtain ⟨raw, hrawmem, hclean⟩ := List.mem_filterMap.mp he
    obtain ⟨hrawsrc, hid⟩ := List.mem_filter.mp hrawmem
    unfold cleanRow at hclean
    obtain ⟨q, hq, hqe⟩ := Option.map_eq_some'.mp hclean
    refine ⟨?_, raw, hrawsrc, ?_, q, hq, ?_⟩
    · rw [← hqe]
      exact hid
    · rw [← hqe]
    · rw [← hqe]
  · rw [if_neg hcol] at hload
    exact Except.noConfusion hload

/-- A source with a single positive, parseable employee row, used to
witness the loader invariant. -/
def w2Src : Source := ⟨rosterColumns, [⟨"E1", "Ada", "Engineer", "RD", "NYC", "100"⟩]⟩

/-- The record loaded from `w2Src`. -/
def w2Emp : Employee := ⟨"E1", "Ada", "Engineer", "RD", "NYC", 100⟩

/-- Witness for `load_roster_invariant` at the concrete source `w2Src`. -/
theorem load_roster_invariant_witness :
    isEmployeeId w2Emp.employee_id = true ∧
    ∃ raw ∈ w2Src.rows, raw.employee_id = w2Emp.employee_id ∧
      ∃ q, to_numeric raw.comp_usd = some q ∧ w2Emp.comp_usd = truncQ q :=
  load_roster_invariant w2Src [w2Emp] w2Emp (by decide) (by decide)

/-- The three-row example of the spec: ids `E1`, `TOTAL`, `E2` with
compensation fields `"100"`, `"100"`, `"abc"`. -/
def exSrc : Source :=
  ⟨rosterColumns,
    [⟨"E1", "Ann", "Engineer", "RD", "NYC", "100"⟩,
     ⟨"TOTAL", "Footer", "None", "None", "None", "100"⟩,
     ⟨"E2", "Bea", "Engineer", "RD", "NYC", "abc"⟩]⟩

/-- C8: from the rows `(E1, "100")`, `(TOTAL, "100")`, `(E2, "abc")` the
loader keeps exactly the `E1` row, with compensation `100`: `TOTAL` fails
the identifier predicate and `"abc"` fails numeric coercion. -/
theorem load_roster_example_filtering :
    load_roster exSrc = .ok [⟨"E1", "Ann", "Engineer", "RD", "NYC", 100⟩] := by decide

/-- C9: when the `comp_usd` column is absent the loader fails with the
missing-column error, and the render pass shows the single error message
and produces no dashboard (lines 46-50: `st.error` then `st.stop`). -/
theorem load_missing_comp_column (src : Source) (n : Nat) (b : Bool)
    (h : "comp_usd" ∉ src.columns) :
    load_roster src = .error (.missingColumn "Expected column 'comp_usd' in roster CSV") ∧
    runApp src n b = .errorPage "Could not load roster: Expected column 'comp_usd' in roster CSV" := by
  have hl : load_roster src =
      .error (.missingColumn "Expected column 'comp_usd' in roster CSV") := by
    unfold load_roster
    rw [if_neg h]
  refine ⟨hl, ?_⟩
  unfold runApp
  rw [hl]
  rfl

/-- A source that lacks the `comp_usd` column. -/
def noCompSrc : Source :=
  ⟨["employee_id", "name"], [⟨"E1", "Ada", "Engineer", "RD", "NYC", "100"⟩]⟩

/-- Witness for `load_missing_comp_column` at the concrete source
`noCompSrc`. -/
theorem load_missing_comp_column_witness :
    load_roster noCompSrc =
      .error (.missingColumn "Expected column 'comp_usd' in roster CSV") ∧
    runApp noCompSrc 5 true =
      .errorPage "Could not load roster: Expected column 'comp_usd' in roster CSV" :=
  load_missing_comp_column noCompSrc 5 true (by decide)

/-- C10: when the `comp_usd` column exists but every row fails cleaning
(bad identifier or unparseable compensation), the loader returns the empty
roster successfully instead of raising an error. -/
theorem load_zero_valid_rows_ok (src : Source)
    (hcol : "comp_usd" ∈ src.columns)
    (hrows : ∀ raw ∈ src.rows,
      isEmployeeId raw.employee_id = false ∨ to_numeric raw.comp_usd = none) :
    load_roster src = .ok [] := by
  unfold load_roster
  rw [if_pos hcol]
  congr 1
  rw [List.filterMap_eq_nil_iff]
  intro raw hraw
  obtain ⟨hmem, hid⟩ := List.mem_filter.mp hraw
  rcases hrows raw hmem with hbad | hbad
  · rw [hid] at hbad
    exact absurd hbad (by simp)
  · unfold cleanRow
    rw [hbad]
    rfl

/-- A source whose rows are a footer row and a row with an unparseable
compensation: zero valid rows after cleaning. -/
def footerSrc : Source :=
  ⟨rosterColumns,
    [⟨"TOTAL", "Footer", "None", "None", "None", "500"⟩,
     ⟨"E7", "Eve", "Engineer", "RD", "NYC", "n/a"⟩]⟩

/-- Witness for `load_zero_valid_rows_ok` at the concrete source
`footerSrc`. -/
theorem load_zero_valid_rows_ok_witness : load_roster footerSrc = .ok [] :=
  load_zero_valid_rows_ok footerSrc (by decide) (by decide)

/-- C5: summarizing the empty selection yields all-zero statistics and, the
embedding being total, no error: the empty selection is an explicitly
handled input (each of lines 77-79 guards on `selected.empty`). -/
theorem summarize_empty : summarize [] = ⟨0, 0, 0, 0⟩ := rfl

/-- C6: for a nonempty selection the average is the total divided by the
count with truncation toward zero (`int(mean)` on the exact rational
mean). -/
theorem summarize_average_trunc (sel : List Employee) (h : sel ≠ []) :
    (summarize sel).average = Int.tdiv (summarize sel).total (sel.length : Int) := by
  have hne : sel.isEmpty = false := by simp [List.isEmpty_iff, h]
  have hlen : 0 < sel.length := List.length_pos.mpr h
  simp only [summarize, average_cost, total_cost, hne, Bool.false_eq_true, if_false]
  exact truncQ_mkRat _ _ hlen

/-- First employee of the C6 witness selection. -/
def w6a : Employee := ⟨"E1", "Ada", "Engineer", "RD", "NYC", -1⟩

/-- Second employee of the C6 witness selection. -/
def w6b : Employee := ⟨"E2", "Ben", "Engineer", "RD", "NYC", -2⟩

/-- Witness for `summarize_average_trunc`: the average of compensations
`[-1, -2]` is `int(-1.5) = -1`, truncated toward zero (not `-2`). -/
theorem summarize_average_trunc_witness : (summarize [w6a, w6b]).average = -1 :=
  (summarize_average_trunc [w6a, w6b] (by decide)).trans (by decide)

/-- The pandas median of an integer column equals the spec's conventional
numeric median. -/
theorem series_median_eq_conventional (xs : List Int) :
    series_median xs = conventionalMedian xs := by
  simp only [series_median, conventionalMedian]
  split_ifs with hpar
  · rw [Rat.mkRat_one]
  · rw [mkRat_eq_div_cast]
    push_cast
    ring

/-- C7: for a nonempty selection the median is the conventional numeric
median of the compensation values truncated toward zero; explicitly, it is
the middle value of the sorted values for an odd count and the
toward-zero-truncated half of the sum of the two middle values for an even
count. -/
theorem summarize_median_conventional (sel : List Employee) (h : sel ≠ []) :
    (summarize sel).median = truncQ (conventionalMedian (sel.map Employee.comp_usd)) ∧
    (sel.length % 2 = 1 →
      (summarize sel).median =
        ((sel.map Employee.comp_usd).insertionSort (· ≤ ·)).getD (sel.length / 2) 0) ∧
    (sel.length % 2 = 0 →
      (summarize sel).median =
        Int.tdiv
          (((sel.map Employee.comp_usd).insertionSort (· ≤ ·)).getD (sel.length / 2 - 1) 0 +
            ((sel.map Employee.comp_usd).insertionSort (· ≤ ·)).getD (sel.length / 2) 0) 2) := by
  have hne : sel.isEmpty = false := by simp [List.isEmpty_iff, h]
  have hmed : (summarize sel).median = truncQ (series_median (sel.map Employee.comp_usd)) := by
    simp [summarize, median_cost, hne]
  have hlen : (sel.map Employee.comp_usd).length = sel.length := List.length_map _ _
  refine ⟨by rw [hmed, series_median_eq_conventional], ?_, ?_⟩
  · intro hodd
    rw [hmed]
    simp only [series_median, hlen]
    rw [if_pos hodd, Rat.mkRat_one, truncQ_intCast]
  · intro heven
    rw [hmed]
    simp only [series_median, hlen]
    rw [if_neg (by omega)]
    have h2 := truncQ_mkRat
      (((sel.map Employee.comp_usd).insertionSort (· ≤ ·)).getD (sel.length / 2 - 1) 0 +
        ((sel.map Employee.comp_usd).insertionSort (· ≤ ·)).getD (sel.length / 2) 0) 2
      (by norm_num)
    simpa using h2

/-- First employee of the C7 witness selection. -/
def w7a : Employee := ⟨"E1", "Ada", "Engineer", "RD", "NYC", 1⟩

/-- Second employee of the C7 witness selection. -/
def w7b : Employee := ⟨"E2", "Ben", "Engineer", "RD", "NYC", 2⟩

/-- Witness for `summarize_median_conventional`: the median of the
even-count selection with compensations `[1, 2]` is `int(1.5) = 1`. -/
theorem summarize_median_conventional_witness : (summarize [w7a, w7b]).median = 1 :=
  ((summarize_median_conventional [w7a, w7b] (by decide)).2.2 (by decide)).trans (by decide)
